import Mathlib

/-!
# Verification of the campground scraping pipeline

Shallow embedding of the pipeline implemented in `src/scraper/dyrt_scraper.py`
and `src/geocoding/nominatim.py`: the paginated fetcher with retries
(`get_campgrounds`), the record processor (`process_campground`), the
upserting persister (`save_to_database`), the per-region orchestrator
(`scrape_region`), the parallel orchestrator (`parallel_scrape_regions`),
and the caching reverse geocoder (`get_address_from_coordinates`).

External effects are modelled by oracles: HTTP responses come from a
function `Nat → Response` indexed by a running call counter, database
attempt outcomes from a function `Nat → DbAttempt`, and geocoding
responses from a function `Nat → GeoResp`.  Loops bounded by retry
counters are written as structural recursion on a fuel argument that the
source's own retry bound keeps from ever running out.
-/

/-! ## Raw listings and domain records -/

/-- A JSON scalar as it may appear in the `id` position of a raw listing. -/
inductive JsonVal where
  | str (s : String)
  | num (n : Int)
  | null
deriving DecidableEq, Repr

/-- One element of the search API's `data` array.  The claims under
verification only inspect the identity field, so the remaining payload
(the `attributes` map, `links`, coordinates, ...) is abstracted into one
opaque `attrs` component carried through processing and persistence. -/
structure RawListing where
  id : Option JsonVal
  attrs : String
deriving DecidableEq, Repr

/-- The validated domain record produced by `process_campground`
(`Campground` pydantic model).  `id` is the mandatory identity, `attrs`
abstracts the mutable attribute fields, `address` is the reverse-geocoded
address. -/
structure Campground where
  id : String
  attrs : String
  address : Option String
deriving DecidableEq, Repr

/-- The `campgrounds` table (`CampgroundDB`): rows keyed by the primary key
`id`.  The primary-key constraint keeps at most one row per id. -/
abbrev Table := List Campground

/-! ## Geocoder (`src/geocoding/nominatim.py`) -/

/-- Upstream response to one Nominatim request, as classified by
`get_address_from_coordinates`:
`ok a` is an HTTP 200 whose JSON carries `display_name = a`;
`okNoName` is an HTTP 200 without `display_name`;
`http c` is a response with status code `c ≠ 200`;
`netErr` is a `requests.RequestException`;
`exc` is any other exception while handling the response. -/
inductive GeoResp where
  | ok (a : String)
  | okNoName
  | http (code : Nat)
  | netErr
  | exc
deriving DecidableEq, Repr

/-- The constant `MAX_RETRIES` in `nominatim.py`. -/
def MAX_RETRIES : Nat := 3

/-- Coordinate pair used as cache key (`(latitude, longitude)`). -/
abbrev Coord := Int × Int

/-- The module-level dict `geocoding_cache`, embedded as an association
list in which the most recent binding for a key shadows older ones. -/
abbrev GeoCache := List (Coord × String)

/-- Dictionary lookup in `geocoding_cache`. -/
def lookupC : GeoCache → Coord → Option String
  | [], _ => none
  | e :: t, k => if e.1 == k then some e.2 else lookupC t k

/-- Result of one `get_address_from_coordinates` invocation: the returned
address (or `None`), the cache afterwards, and the global network-call
counter afterwards (so `ctr' - ctr` calls were issued by this invocation). -/
structure GeoResult where
  addr : Option String
  cache : GeoCache
  ctr : Nat
deriving DecidableEq, Repr

/-- The retry loop of `get_address_from_coordinates` (`while retries <
MAX_RETRIES`).  `fuel` is `MAX_RETRIES - retries`; the `fuel = 0` case is
the loop exiting with all retries exhausted, which returns `None` and
leaves the cache untouched.  A 200 response with `display_name` writes
the cache and returns; a 200 response without it returns `None` at once;
a non-200 response or a network error consumes a retry; any other
exception returns `None` at once. -/
def geoLoop (oracle : Nat → GeoResp) (key : Coord) (cache : GeoCache) :
    Nat → Nat → GeoResult
  | 0, ctr => ⟨none, cache, ctr⟩
  | fuel + 1, ctr =>
    match oracle ctr with
    | .ok a => ⟨some a, (key, a) :: cache, ctr + 1⟩
    | .okNoName => ⟨none, cache, ctr + 1⟩
    | .http _ => geoLoop oracle key cache fuel (ctr + 1)
    | .netErr => geoLoop oracle key cache fuel (ctr + 1)
    | .exc => ⟨none, cache, ctr + 1⟩

/-- The function `get_address_from_coordinates(latitude, longitude)`: a cache hit
returns immediately with no network call; a miss runs the retry loop. -/
def get_address_from_coordinates (oracle : Nat → GeoResp) (key : Coord)
    (cache : GeoCache) (ctr : Nat) : GeoResult :=
  match lookupC cache key with
  | some a => ⟨some a, cache, ctr⟩
  | none => geoLoop oracle key cache MAX_RETRIES ctr

/-- Trace of `M` successive queries for the same key: for each query its
returned address and the number of network calls it issued, plus the
final cache and call counter. -/
structure QueryRun where
  log : List (Option String × Nat)
  cache : GeoCache
  ctr : Nat
deriving DecidableEq, Repr

/-- Run `get_address_from_coordinates` `m` times in sequence for one key,
threading the cache and the call counter. -/
def queryRepeat (oracle : Nat → GeoResp) (key : Coord) :
    Nat → GeoCache → Nat → QueryRun
  | 0, cache, ctr => ⟨[], cache, ctr⟩
  | m + 1, cache, ctr =>
    let r := get_address_from_coordinates oracle key cache ctr
    let rest := queryRepeat oracle key m r.cache r.ctr
    ⟨(r.addr, r.ctr - ctr) :: rest.log, rest.cache, rest.ctr⟩

/-- A response on which the geocoder's loop retries: a network error or a
non-200 status. -/
def GeoResp.transient : GeoResp → Bool
  | .netErr => true
  | .http _ => true
  | _ => false

/-! ### Geocoder lemmas -/

/-- If every response is transient, the retry loop burns exactly its fuel
in network calls, returns `None`, and leaves the cache unchanged. -/
theorem geoLoop_all_transient (oracle : Nat → GeoResp) (key : Coord)
    (cache : GeoCache) (htr : ∀ i, (oracle i).transient = true) :
    ∀ fuel ctr, geoLoop oracle key cache fuel ctr = ⟨none, cache, ctr + fuel⟩ := by
  intro fuel
  induction fuel with
  | zero => intro ctr; simp [geoLoop]
  | succ n ih =>
    intro ctr
    have h := htr ctr
    cases ho : oracle ctr <;>
      simp [GeoResp.transient, ho] at h <;>
      simp [geoLoop, ho, ih (ctr + 1)] <;> omega

/-- If the retry loop returns an address `a`, the response stream produced
`a` as a 200-with-`display_name` response at some consumed index, and the
only cache change is the new binding `key ↦ a`. -/
theorem geoLoop_success (oracle : Nat → GeoResp) (key : Coord) (cache : GeoCache) :
    ∀ fuel ctr,
      (geoLoop oracle key cache fuel ctr).cache = cache ∨
      ∃ a, (geoLoop oracle key cache fuel ctr).addr = some a ∧
        (geoLoop oracle key cache fuel ctr).cache = (key, a) :: cache ∧
        ∃ i, ctr ≤ i ∧ i < (geoLoop oracle key cache fuel ctr).ctr ∧ oracle i = .ok a := by
  intro fuel
  induction fuel with
  | zero => intro ctr; left; simp [geoLoop]
  | succ n ih =>
    intro ctr
    cases ho : oracle ctr with
    | ok a =>
      right
      refine ⟨a, ?_, ?_, ctr, le_refl ctr, ?_, ho⟩ <;> simp [geoLoop, ho]
    | okNoName => left; simp [geoLoop, ho]
    | http c =>
      rcases ih (ctr + 1) with h | ⟨a, h1, h2, i, hi1, hi2, hi3⟩
      · left; simpa [geoLoop, ho] using h
      · right
        exact ⟨a, by simpa [geoLoop, ho] using h1, by simpa [geoLoop, ho] using h2,
          i, by omega, by simpa [geoLoop, ho] using hi2, hi3⟩
    | netErr =>
      rcases ih (ctr + 1) with h | ⟨a, h1, h2, i, hi1, hi2, hi3⟩
      · left; simpa [geoLoop, ho] using h
      · right
        exact ⟨a, by simpa [geoLoop, ho] using h1, by simpa [geoLoop, ho] using h2,
          i, by omega, by simpa [geoLoop, ho] using hi2, hi3⟩
    | exc => left; simp [geoLoop, ho]

/-- If the retry loop returns an address, the key is bound to it in the
resulting cache. -/
theorem geoLoop_addr_caches (oracle : Nat → GeoResp) (key : Coord) (cache : GeoCache) :
    ∀ fuel ctr a, (geoLoop oracle key cache fuel ctr).addr = some a →
      lookupC (geoLoop oracle key cache fuel ctr).cache key = some a := by
  intro fuel
  induction fuel with
  | zero => intro ctr a h; simp [geoLoop] at h
  | succ n ih =>
    intro ctr a h
    cases ho : oracle ctr with
    | ok b =>
      simp [geoLoop, ho] at h
      subst h
      simp [geoLoop, ho, lookupC]
    | okNoName => simp [geoLoop, ho] at h
    | http c => simpa [geoLoop, ho] using ih (ctr + 1) a (by simpa [geoLoop, ho] using h)
    | netErr => simpa [geoLoop, ho] using ih (ctr + 1) a (by simpa [geoLoop, ho] using h)
    | exc => simp [geoLoop, ho] at h

/-- A call that returns an address leaves that address bound to the key in
the resulting cache. -/
theorem get_address_caches (oracle : Nat → GeoResp) (key : Coord)
    (cache : GeoCache) (ctr : Nat) (a : String)
    (h : (get_address_from_coordinates oracle key cache ctr).addr = some a) :
    lookupC (get_address_from_coordinates oracle key cache ctr).cache key = some a := by
  unfold get_address_from_coordinates at *
  cases hl : lookupC cache key with
  | some b => simp [hl] at h ⊢; exact h
  | none =>
    simp [hl] at h ⊢
    exact geoLoop_addr_caches oracle key cache MAX_RETRIES ctr a h

/-- On a cache hit the call returns the cached address immediately, with
no network call and no cache change. -/
theorem get_address_hit (oracle : Nat → GeoResp) (key : Coord)
    (cache : GeoCache) (ctr : Nat) (a : String) (h : lookupC cache key = some a) :
    get_address_from_coordinates oracle key cache ctr = ⟨some a, cache, ctr⟩ := by
  simp [get_address_from_coordinates, h]

/-! ## Fetcher (`get_campgrounds` in `dyrt_scraper.py`) -/

/-- Upstream response to one search-API request, as classified by
`get_campgrounds`: `ok data` is an HTTP 200 whose JSON `data` array parses
to `data` (possibly empty — the pagination terminator); `http c` is a
response with status code `c ≠ 200`; `netErr` is a
`requests.exceptions.RequestException`; `exc` is any other exception. -/
inductive FetchResp where
  | ok (data : List RawListing)
  | http (code : Nat)
  | netErr
  | exc
deriving DecidableEq, Repr

/-- The local `max_retries` in `get_campgrounds`. -/
def max_retries : Nat := 3

/-- Outcome of one `get_campgrounds` call.  `result` is `.ok data` for a
normal return and `.error ()` when the call raises: the source's
`RequestException` handler interpolates the undefined name `MAX_retries`
into its log message, so a network error raises an uncaught `NameError`
out of the function.  `calls` counts HTTP requests issued and `waits` the
successive `time.sleep` durations. -/
structure FetchOutcome where
  result : Except Unit (List RawListing)
  calls : Nat
  waits : List Nat
deriving Repr

/-- The retry loop of `get_campgrounds` (`while retries < max_retries`).
`fuel` is `max_retries - retries`, and `retries` is threaded so the wait
time `2 * retries` after the increment matches the source.  A 200
response returns its data; a 429 or any non-4xx failure sleeps and
retries; any other 4xx returns `[]` immediately; a network error reaches
the logging f-string whose undefined `MAX_retries` raises `NameError`
(modelled as `.error ()`); any other exception returns `[]`.  Falling out
of the loop returns `[]`. -/
def fetchLoop (oracle : Nat → FetchResp) :
    Nat → Nat → Nat → List Nat → FetchOutcome
  | 0, _retries, calls, waits => ⟨.ok [], calls, waits⟩
  | fuel + 1, retries, calls, waits =>
    match oracle calls with
    | .ok data => ⟨.ok data, calls + 1, waits⟩
    | .http code =>
      let r := retries + 1
      let w := 2 * r
      if 400 ≤ code ∧ code < 500 then
        if code = 429 then
          if r < max_retries then fetchLoop oracle fuel r (calls + 1) (waits ++ [w])
          else ⟨.ok [], calls + 1, waits ++ [w]⟩
        else ⟨.ok [], calls + 1, waits⟩
      else
        if r < max_retries then fetchLoop oracle fuel r (calls + 1) (waits ++ [w])
        else ⟨.ok [], calls + 1, waits ++ [w]⟩
    | .netErr => ⟨.error (), calls + 1, waits⟩
    | .exc => ⟨.ok [], calls + 1, waits⟩

/-- The function `get_campgrounds(bbox, page, page_size)` for one page, driven by the
response oracle. -/
def get_campgrounds (oracle : Nat → FetchResp) : FetchOutcome :=
  fetchLoop oracle max_retries 0 0 []

/-! ## Record processor (`process_campground`) -/

/-- Modelled from the spec: the pydantic `Campground` model
(`src/models/campground.py`) is imported by the scraper but is not under
`src/`; only its callers are.  Per the spec, validation fails exactly
when "the mandatory identity field is absent or of the wrong shape" —
`id` must be present and be a string.  Returns the validated id. -/
def validListing : Option JsonVal → Option String
  | some (.str s) => some s
  | _ => none

/-- The function `process_campground(campground_data)`: builds the flat record from the
raw listing (the attribute payload carried opaquely, the reverse-geocoded
address supplied by `addr`); a `ValidationError` — raised when the
identity field is absent or of the wrong shape — is caught and turned
into `none`, never propagated. -/
def process_campground (raw : RawListing) (addr : Option String) : Option Campground :=
  match validListing raw.id with
  | some s => some ⟨s, raw.attrs, addr⟩
  | none => none

/-- Result of the processing phase of `scrape_region`: the accumulated
`final_campgrounds` and the `processing_errors` counter. -/
structure ProcResult where
  valid : List Campground
  dropped : Nat
deriving DecidableEq, Repr

/-- The processing loop of `scrape_region`: every raw listing runs through
`process_campground` (with `addrOf` standing for the geocoder); a `none`
result increments `processing_errors` and the loop continues. -/
def processPhase (addrOf : RawListing → Option String) : List RawListing → ProcResult
  | [] => ⟨[], 0⟩
  | raw :: rest =>
    let r := processPhase addrOf rest
    match process_campground raw (addrOf raw) with
    | some c => ⟨c :: r.valid, r.dropped⟩
    | none => ⟨r.valid, r.dropped + 1⟩

/-! ## Persister (`save_to_database`) -/

/-- Fate of one attempt of the per-record inner loop of
`save_to_database`.  `ok`: the lookup and the commit both succeed.
`failQuery`: the existence lookup raises `SQLAlchemyError` (before any
counter is incremented).  `failCommit`: the lookup succeeds, the counter
is incremented, then `db.commit()` raises `SQLAlchemyError` and the
rollback undoes the row change (but not the counter).  `excQuery` /
`excCommit`: a non-SQLAlchemy exception at the same two points, handled
by `except Exception` (count an error, break). -/
inductive DbAttempt where
  | ok
  | failQuery
  | failCommit
  | excQuery
  | excCommit
deriving DecidableEq, Repr

/-- The local `max_db_retries` in `save_to_database`. -/
def max_db_retries : Nat := 3

/-- The lookup `db.query(CampgroundDB).filter(CampgroundDB.id == id).first()`. -/
def findRow : Table → String → Option Campground
  | [], _ => none
  | r :: t, i => if r.id == i then some r else findRow t i

/-- The update branch: overwrite every mutable attribute field of the
existing row (the primary key `id` itself is not reassigned). -/
def updateRow : Table → Campground → Table
  | [], _ => []
  | r :: t, c =>
    if r.id == c.id then { r with attrs := c.attrs, address := c.address } :: t
    else r :: updateRow t c

/-- State after the per-record loop: the table, the three counters, and
the database-attempt oracle index. -/
structure StepResult where
  table : Table
  ins : Nat
  upd : Nat
  err : Nat
  idx : Nat
deriving DecidableEq, Repr

/-- The inner `while not success and db_retries < max_db_retries` loop of
`save_to_database` for one record.  `fuel` bounds the recursion
(`max_db_retries` at entry, never exhausted because the retry check exits
first).  On `ok` the record is upserted and exactly one of
`inserted_count`/`updated_count` is incremented.  On `failCommit` the
counter increment has already happened when the commit fails, and the
rollback restores only the table.  A `SQLAlchemyError` whose retry budget
is exhausted increments `error_count`; a non-SQLAlchemy exception
increments `error_count` and breaks at once. -/
def saveOneGo (errs : Nat → DbAttempt) (c : Campground) :
    Nat → Nat → Nat → Table → Nat → Nat → Nat → StepResult
  | 0, _, idx, db, ins, upd, err => ⟨db, ins, upd, err, idx⟩
  | fuel + 1, dbRetries, idx, db, ins, upd, err =>
    match errs idx with
    | .ok =>
      match findRow db c.id with
      | some _ => ⟨updateRow db c, ins, upd + 1, err, idx + 1⟩
      | none => ⟨db ++ [c], ins + 1, upd, err, idx + 1⟩
    | .failQuery =>
      if dbRetries + 1 ≥ max_db_retries then ⟨db, ins, upd, err + 1, idx + 1⟩
      else saveOneGo errs c fuel (dbRetries + 1) (idx + 1) db ins upd err
    | .failCommit =>
      match findRow db c.id with
      | some _ =>
        if dbRetries + 1 ≥ max_db_retries then ⟨db, ins, upd + 1, err + 1, idx + 1⟩
        else saveOneGo errs c fuel (dbRetries + 1) (idx + 1) db ins (upd + 1) err
      | none =>
        if dbRetries + 1 ≥ max_db_retries then ⟨db, ins + 1, upd, err + 1, idx + 1⟩
        else saveOneGo errs c fuel (dbRetries + 1) (idx + 1) db (ins + 1) upd err
    | .excQuery => ⟨db, ins, upd, err + 1, idx + 1⟩
    | .excCommit =>
      match findRow db c.id with
      | some _ => ⟨db, ins, upd + 1, err + 1, idx + 1⟩
      | none => ⟨db, ins + 1, upd, err + 1, idx + 1⟩

/-- Batch-level return of `save_to_database`: the table and the triple
`(inserted_count, updated_count, error_count)`. -/
structure SaveResult where
  table : Table
  ins : Nat
  upd : Nat
  err : Nat
deriving DecidableEq, Repr

/-- The `for campground in campgrounds` loop of `save_to_database`,
threading the table, the three counters and the attempt-oracle index. -/
def saveList (errs : Nat → DbAttempt) :
    List Campground → Table → Nat → Nat → Nat → Nat → SaveResult
  | [], db, ins, upd, err, _ => ⟨db, ins, upd, err⟩
  | c :: rest, db, ins, upd, err, idx =>
    let s := saveOneGo errs c max_db_retries 0 idx db ins upd err
    saveList errs rest s.table s.ins s.upd s.err s.idx

/-- The function `save_to_database(campgrounds)` against table `db`, with per-attempt
outcomes drawn from `errs`. -/
def save_to_database (errs : Nat → DbAttempt) (db : Table)
    (camps : List Campground) : SaveResult :=
  saveList errs camps db 0 0 0 0

/-! ## Region orchestrator (`scrape_region`, `parallel_scrape_regions`) -/

/-- Outcome of the data-collection phase of `scrape_region`: the pages on
which the fetcher was invoked (in order), the accumulated
`raw_campgrounds`, and whether the fetcher raised (propagating into
`scrape_region`'s catch-all handler). -/
structure PageRun where
  calls : List Nat
  raw : List RawListing
  raised : Bool
deriving DecidableEq, Repr

/-- The `while True` pagination loop of `scrape_region`, driven by an
abstract page fetcher (a mocked `get_campgrounds`): fetch page `page`; an
empty page breaks; otherwise extend `raw_campgrounds`, advance to
`page + 1` and break when a cap `m` is set and `page + 1 > m`.  A fetch
that raises aborts the phase with `raised = true`.  `fuel` only bounds
the recursion; every claim supplies enough of it for the loop's own exits
to fire first. -/
def pageLoop (fetch : Nat → Except Unit (List RawListing)) (maxPages : Option Nat) :
    Nat → Nat → List RawListing → List Nat → PageRun
  | 0, _page, acc, calls => ⟨calls, acc, false⟩
  | fuel + 1, page, acc, calls =>
    match fetch page with
    | .error _ => ⟨calls ++ [page], acc, true⟩
    | .ok data =>
      if data.isEmpty then ⟨calls ++ [page], acc, false⟩
      else
        match maxPages with
        | some m =>
          if m < page + 1 then ⟨calls ++ [page], acc ++ data, false⟩
          else pageLoop fetch maxPages fuel (page + 1) (acc ++ data) (calls ++ [page])
        | none => pageLoop fetch maxPages fuel (page + 1) (acc ++ data) (calls ++ [page])

/-- A page fetcher that never raises: page `p` answers `f p`. -/
def pureFetch (f : Nat → List RawListing) : Nat → Except Unit (List RawListing) :=
  fun p => .ok (f p)

/-- The function `scrape_region(bbox, max_pages)`: collect pages starting at page 1,
process the raw listings, persist the valid records, and return
`(len(raw_campgrounds), len(final_campgrounds), inserted, updated)`
together with the resulting table.  The surrounding `try`/`except`
converts any exception escaping the phases (in this model, only a fetch
that raises) into the normal return `(len(raw_campgrounds), 0, 0, 0)`;
the same tuple is returned when no valid record survived processing, in
which case the database is not touched. -/
def scrape_region (fetch : Nat → Except Unit (List RawListing))
    (maxPages : Option Nat) (fuel : Nat) (addrOf : RawListing → Option String)
    (errs : Nat → DbAttempt) (db : Table) : (Nat × Nat × Nat × Nat) × Table :=
  let run := pageLoop fetch maxPages fuel 1 [] []
  if run.raised then ((run.raw.length, 0, 0, 0), db)
  else
    let pr := processPhase addrOf run.raw
    if pr.valid.isEmpty then ((run.raw.length, 0, 0, 0), db)
    else
      let s := save_to_database errs db pr.valid
      ((run.raw.length, pr.valid.length, s.ins, s.upd), s.table)

/-- One mocked region task: the region's page fetcher, page cap, loop
fuel, geocoding outcomes, database-attempt outcomes and starting table.
Deterministic mocks make `scrape_region` a function of the spec alone. -/
structure RegionSpec where
  fetch : Nat → Except Unit (List RawListing)
  maxPages : Option Nat
  fuel : Nat
  addrOf : RawListing → Option String
  errs : Nat → DbAttempt
  db : Table

/-- The four counts `scrape_region` reports for one region. -/
def scrapeOne (s : RegionSpec) : Nat × Nat × Nat × Nat :=
  (scrape_region s.fetch s.maxPages s.fuel s.addrOf s.errs s.db).1

/-- Component-wise addition of two count quadruples (`total_raw += raw`
etc. in `parallel_scrape_regions`). -/
def addCounts (x y : Nat × Nat × Nat × Nat) : Nat × Nat × Nat × Nat :=
  (x.1 + y.1, x.2.1 + y.2.1, x.2.2.1 + y.2.2.1, x.2.2.2 + y.2.2.2)

/-- Sum of a list of count quadruples. -/
def sumCounts : List (Nat × Nat × Nat × Nat) → Nat × Nat × Nat × Nat
  | [] => (0, 0, 0, 0)
  | x :: t => addCounts x (sumCounts t)

/-- The function `parallel_scrape_regions(regions, ...)`: every region task runs on the
pool and, `as_completed` yields them, its four counts are added to the
running totals.  `completed` is the regions in completion order — for
deterministic mocked regions the thread pool only permutes it. -/
def parallel_scrape_regions (completed : List RegionSpec) : Nat × Nat × Nat × Nat :=
  sumCounts (completed.map scrapeOne)

/-! ## Further geocoder lemmas -/

/-- Once the key is cached, every further query is a pure cache hit: same
address, zero network calls, nothing changed. -/
theorem queryRepeat_hit (oracle : Nat → GeoResp) (key : Coord) (a : String) :
    ∀ m cache ctr, lookupC cache key = some a →
      queryRepeat oracle key m cache ctr = ⟨List.replicate m (some a, 0), cache, ctr⟩ := by
  intro m
  induction m with
  | zero => intro cache ctr _; simp [queryRepeat]
  | succ n ih =>
    intro cache ctr h
    simp only [queryRepeat, get_address_hit oracle key cache ctr a h, ih cache ctr h]
    simp [List.replicate_succ]

/-! ## Claim theorems: geocoder -/

/-- Claim C3, counterexample.  The claim says a lookup that exhausts its
retries caches a "confirmed absent" result so that the next call with the
same coordinates returns from the cache with no network call.  With every
upstream response a network error, the first call exhausts its retries
(3 calls, returns `None`), yet the second call's counter moves from 3 to
6: it issued three fresh network calls instead of hitting a cache. -/
theorem C3_counterexample :
    (get_address_from_coordinates (fun _ => GeoResp.netErr) (0, 0) [] 0).addr = none ∧
    (get_address_from_coordinates (fun _ => GeoResp.netErr) (0, 0) [] 0).ctr = 3 ∧
    ¬ ((get_address_from_coordinates (fun _ => GeoResp.netErr) (0, 0)
        (get_address_from_coordinates (fun _ => GeoResp.netErr) (0, 0) [] 0).cache
        (get_address_from_coordinates (fun _ => GeoResp.netErr) (0, 0) [] 0).ctr).ctr =
      (get_address_from_coordinates (fun _ => GeoResp.netErr) (0, 0) [] 0).ctr) := by
  decide

/-- Claim C3, amended.  A coordinate pair whose lookup exhausts its retries
(every attempt a transient network failure or non-200 response) gets
`None` back and nothing is written to the cache, so a subsequent call
with the same pair misses the cache and issues `MAX_RETRIES` network
calls again. -/
theorem C3_no_absent_caching (oracle : Nat → GeoResp) (key : Coord)
    (cache : GeoCache) (ctr : Nat) (hmiss : lookupC cache key = none)
    (htr : ∀ i, (oracle i).transient = true) :
    get_address_from_coordinates oracle key cache ctr = ⟨none, cache, ctr + MAX_RETRIES⟩ ∧
    get_address_from_coordinates oracle key cache (ctr + MAX_RETRIES) =
      ⟨none, cache, ctr + MAX_RETRIES + MAX_RETRIES⟩ := by
  unfold get_address_from_coordinates
  rw [hmiss]
  exact ⟨geoLoop_all_transient oracle key cache htr MAX_RETRIES ctr,
    geoLoop_all_transient oracle key cache htr MAX_RETRIES (ctr + MAX_RETRIES)⟩

/-- Witness for `C3_no_absent_caching` at an all-network-error oracle. -/
theorem C3_no_absent_caching_witness :
    get_address_from_coordinates (fun _ => GeoResp.netErr) (0, 0) [] 0 = ⟨none, [], 3⟩ ∧
    get_address_from_coordinates (fun _ => GeoResp.netErr) (0, 0) [] 3 = ⟨none, [], 6⟩ :=
  C3_no_absent_caching (fun _ => GeoResp.netErr) (0, 0) [] 0 rfl (fun _ => rfl)

/-- Claim C6, counterexample.  The claim says a pair queried `M > 1` times
causes at most one upstream network call in total.  With the first
response a 500 and the second a success, the first query alone issues two
network calls (one retry), so two queries issue two calls in total. -/
theorem C6_counterexample :
    ¬ ((queryRepeat (fun n => if n = 0 then GeoResp.http 500 else GeoResp.ok "addr")
        (0, 0) 2 [] 0).ctr ≤ 1) := by
  decide

/-- Claim C6, amended.  Once one query for a coordinate pair returns an
address, that address is cached, and every one of the next `M` queries
for the pair returns the same address with zero network calls — so at
most one query interacts with the upstream after the first success (an
individual query may still issue up to `MAX_RETRIES` calls while
retrying, and a query that fails every attempt caches nothing). -/
theorem C6_cached_after_success (oracle : Nat → GeoResp) (key : Coord)
    (cache : GeoCache) (ctr : Nat) (M : Nat) (a : String)
    (h : (get_address_from_coordinates oracle key cache ctr).addr = some a) :
    queryRepeat oracle key M (get_address_from_coordinates oracle key cache ctr).cache
        (get_address_from_coordinates oracle key cache ctr).ctr =
      ⟨List.replicate M (some a, 0),
        (get_address_from_coordinates oracle key cache ctr).cache,
        (get_address_from_coordinates oracle key cache ctr).ctr⟩ :=
  queryRepeat_hit oracle key a M _ _ (get_address_caches oracle key cache ctr a h)

/-- Witness for `C6_cached_after_success`: after a first successful query,
two further queries both answer from the cache. -/
theorem C6_cached_after_success_witness :
    queryRepeat (fun _ => GeoResp.ok "A") (1, 2) 2 [((1, 2), "A")] 1 =
      ⟨[(some "A", 0), (some "A", 0)], [((1, 2), "A")], 1⟩ :=
  C6_cached_after_success (fun _ => GeoResp.ok "A") (1, 2) [] 0 2 "A" rfl

/-- Claim C10.  Invariant of the shared geocoding cache: one call to
`get_address_from_coordinates` either leaves the cache exactly as it was
(every miss, failure, or exhausted retry — `None` is never written), or
it returned an address `a` obtained from a consumed 200 response carrying
`display_name = a`, and the only change is the new binding `key ↦ a`.
Hence every value ever stored is a successfully resolved address, and a
failed lookup leaves no trace, so a later call re-queries upstream. -/
theorem C10_cache_stores_only_resolved (oracle : Nat → GeoResp) (key : Coord)
    (cache : GeoCache) (ctr : Nat) :
    (get_address_from_coordinates oracle key cache ctr).cache = cache ∨
    ∃ a, (get_address_from_coordinates oracle key cache ctr).addr = some a ∧
      (get_address_from_coordinates oracle key cache ctr).cache = (key, a) :: cache ∧
      ∃ i, ctr ≤ i ∧ i < (get_address_from_coordinates oracle key cache ctr).ctr ∧
        oracle i = .ok a := by
  unfold get_address_from_coordinates
  cases hl : lookupC cache key with
  | some a => left; rfl
  | none => exact geoLoop_success oracle key cache MAX_RETRIES ctr

/-! ## Claim theorems: fetcher -/

/-- Claim C2 (code bug), evaluated at the failing input.  The claim says a
network error is retried up to 3 attempts and the call returns `[]`
without ever raising.  In the source, the `RequestException` handler logs
an f-string that interpolates the undefined name `MAX_retries` (the local
is `max_retries`), so the very first network error raises an uncaught
`NameError` out of `get_campgrounds` — one HTTP attempt, no retry, no
sleep, and an exception instead of `[]`. -/
theorem C2_network_error_raises :
    get_campgrounds (fun _ => FetchResp.netErr) = ⟨Except.error (), 1, []⟩ := rfl

/-! ## Persister lemmas -/

/-- A lookup that fails on `db1` continues into `db2`. -/
theorem findRow_append_of_none (db1 db2 : Table) (i : String)
    (h : findRow db1 i = none) : findRow (db1 ++ db2) i = findRow db2 i := by
  induction db1 with
  | nil => simp
  | cons r t ih =>
    by_cases hr : (r.id == i) = true
    · simp [findRow, hr] at h
    · simp only [findRow, hr] at h ⊢
      simp only [List.cons_append, findRow, hr, if_false, Bool.false_eq_true]
      exact ih h

/-- A single-row table with a different id yields no row. -/
theorem findRow_singleton_ne (c : Campground) (i : String) (h : c.id ≠ i) :
    findRow [c] i = none := by
  simp [findRow, beq_iff_eq, h]

/-- An id that occurs in the table is found. -/
theorem findRow_isSome_of_mem (db : Table) (i : String)
    (h : i ∈ db.map (fun r => r.id)) : ∃ r, findRow db i = some r := by
  induction db with
  | nil => simp at h
  | cons r t ih =>
    by_cases hr : r.id = i
    · exact ⟨r, by simp [findRow, beq_iff_eq, hr]⟩
    · simp only [List.map_cons, List.mem_cons] at h
      rcases h with h | h
      · exact absurd h.symm hr
      · obtain ⟨r', hr'⟩ := ih h
        exact ⟨r', by simp [findRow, beq_iff_eq, hr, hr']⟩

/-- Updating a row rewrites its attribute fields but never its primary
key, so the table's ids are unchanged. -/
theorem updateRow_ids (db : Table) (c : Campground) :
    (updateRow db c).map (fun r => r.id) = db.map (fun r => r.id) := by
  induction db with
  | nil => rfl
  | cons r t ih =>
    by_cases hr : (r.id == c.id) = true
    · simp [updateRow, hr]
    · simp [updateRow, hr, ih]

/-- With every database attempt succeeding, a batch of records none of
which is present is inserted wholesale: the rows are appended in order
and only `inserted_count` moves. -/
theorem saveList_inserts (errs : Nat → DbAttempt) (hok : ∀ i, errs i = .ok) :
    ∀ (camps : List Campground) (db : Table) (ins upd err idx : Nat),
      (camps.map (fun c => c.id)).Nodup →
      (∀ c ∈ camps, findRow db c.id = none) →
      saveList errs camps db ins upd err idx =
        ⟨db ++ camps, ins + camps.length, upd, err⟩ := by
  intro camps
  induction camps with
  | nil => intro db ins upd err idx _ _; simp [saveList]
  | cons c rest ih =>
    intro db ins upd err idx hnd hnone
    rw [List.map_cons, List.nodup_cons] at hnd
    have hc : findRow db c.id = none := hnone c (by simp)
    have hstep : saveOneGo errs c max_db_retries 0 idx db ins upd err =
        ⟨db ++ [c], ins + 1, upd, err, idx + 1⟩ := by
      simp [max_db_retries, saveOneGo, hok idx, hc]
    have hnone' : ∀ c' ∈ rest, findRow (db ++ [c]) c'.id = none := by
      intro c' hc'
      rw [findRow_append_of_none db [c] c'.id (hnone c' (List.mem_cons_of_mem c hc'))]
      exact findRow_singleton_ne c c'.id
        (fun he => hnd.1 (he ▸ List.mem_map_of_mem (fun r => r.id) hc'))
    simp only [saveList, hstep]
    rw [ih (db ++ [c]) (ins + 1) upd err (idx + 1) hnd.2 hnone']
    simp only [List.append_assoc, List.singleton_append, List.length_cons,
      SaveResult.mk.injEq, and_true, true_and]
    omega

/-- With every database attempt succeeding, a batch of records all of
which are present is updated wholesale: only `updated_count` moves and
the table keeps exactly its ids. -/
theorem saveList_updates (errs : Nat → DbAttempt) (hok : ∀ i, errs i = .ok) :
    ∀ (camps : List Campground) (db : Table) (ins upd err idx : Nat),
      (∀ c ∈ camps, c.id ∈ db.map (fun r => r.id)) →
      ∃ db', saveList errs camps db ins upd err idx =
          ⟨db', ins, upd + camps.length, err⟩ ∧
        db'.map (fun r => r.id) = db.map (fun r => r.id) := by
  intro camps
  induction camps with
  | nil => intro db ins upd err idx _; exact ⟨db, by simp [saveList], rfl⟩
  | cons c rest ih =>
    intro db ins upd err idx hall
    obtain ⟨r, hr⟩ := findRow_isSome_of_mem db c.id (hall c (by simp))
    have hstep : saveOneGo errs c max_db_retries 0 idx db ins upd err =
        ⟨updateRow db c, ins, upd + 1, err, idx + 1⟩ := by
      simp [max_db_retries, saveOneGo, hok idx, hr]
    obtain ⟨db', h1, h2⟩ := ih (updateRow db c) ins (upd + 1) err (idx + 1)
      (fun c' hc' => by
        rw [updateRow_ids db c]
        exact hall c' (List.mem_cons_of_mem c hc'))
    refine ⟨db', ?_, by rw [h2, updateRow_ids]⟩
    simp only [saveList, hstep]
    rw [h1]
    simp only [List.length_cons, SaveResult.mk.injEq, and_true, true_and]
    omega

/-! ## Claim theorems: persister -/

/-- Claim C1.  With storage starting empty and no storage errors, upserting
a batch of records with pairwise distinct ids yields
`(inserted, updated, errors) = (N, 0, 0)` and leaves exactly those
records as the table; upserting the same batch again yields
`(0, N, 0)`. -/
theorem C1_upsert_idempotent (camps : List Campground) (errs1 errs2 : Nat → DbAttempt)
    (h1 : ∀ i, errs1 i = .ok) (h2 : ∀ i, errs2 i = .ok)
    (hnd : (camps.map (fun c => c.id)).Nodup) :
    save_to_database errs1 [] camps = ⟨camps, camps.length, 0, 0⟩ ∧
    ∃ db2, save_to_database errs2 camps camps = ⟨db2, 0, camps.length, 0⟩ := by
  constructor
  · have h := saveList_inserts errs1 h1 camps [] 0 0 0 0 hnd (fun c _ => rfl)
    simpa [save_to_database] using h
  · obtain ⟨db2, hh, _⟩ := saveList_updates errs2 h2 camps camps 0 0 0 0
      (fun c hc => List.mem_map_of_mem (fun r => r.id) hc)
    exact ⟨db2, by simpa [save_to_database] using hh⟩

/-- Witness for `C1_upsert_idempotent` on two concrete records. -/
theorem C1_upsert_idempotent_witness :
    save_to_database (fun _ => DbAttempt.ok) []
        [⟨"a", "x", none⟩, ⟨"b", "y", none⟩] =
      ⟨[⟨"a", "x", none⟩, ⟨"b", "y", none⟩], 2, 0, 0⟩ ∧
    ∃ db2, save_to_database (fun _ => DbAttempt.ok)
        [⟨"a", "x", none⟩, ⟨"b", "y", none⟩]
        [⟨"a", "x", none⟩, ⟨"b", "y", none⟩] = ⟨db2, 0, 2, 0⟩ :=
  C1_upsert_idempotent [⟨"a", "x", none⟩, ⟨"b", "y", none⟩]
    (fun _ => DbAttempt.ok) (fun _ => DbAttempt.ok)
    (fun _ => rfl) (fun _ => rfl) (by decide)

/-- Claim C4, counterexample.  The claim says each record contributes to
exactly one counter, the three counters summing to the batch size, a
transiently failing commit being counted once.  For one record whose
first commit fails with a transient `SQLAlchemyError` and whose retry
succeeds, `inserted_count` is incremented on both attempts (the increment
precedes the `commit()`), so the counters sum to 2 ≠ 1. -/
theorem C4_counterexample :
    (save_to_database (fun i => if i = 0 then DbAttempt.failCommit else DbAttempt.ok)
        [] [⟨"a", "x", none⟩]).ins = 2 ∧
    ¬ ((save_to_database (fun i => if i = 0 then DbAttempt.failCommit else DbAttempt.ok)
          [] [⟨"a", "x", none⟩]).ins +
        (save_to_database (fun i => if i = 0 then DbAttempt.failCommit else DbAttempt.ok)
          [] [⟨"a", "x", none⟩]).upd +
        (save_to_database (fun i => if i = 0 then DbAttempt.failCommit else DbAttempt.ok)
          [] [⟨"a", "x", none⟩]).err =
      ([⟨"a", "x", none⟩] : List Campground).length) := by
  decide

/-- Under attempt outcomes that never fail at commit, one record's inner
loop moves the three counters by exactly one in total. -/
theorem saveOneGo_adds_one (errs : Nat → DbAttempt) (c : Campground)
    (h : ∀ i, errs i ≠ .failCommit ∧ errs i ≠ .excCommit) :
    ∀ fuel dbRetries idx db ins upd err,
      max_db_retries ≤ fuel + dbRetries → dbRetries < max_db_retries →
      (saveOneGo errs c fuel dbRetries idx db ins upd err).ins +
        (saveOneGo errs c fuel dbRetries idx db ins upd err).upd +
        (saveOneGo errs c fuel dbRetries idx db ins upd err).err =
      ins + upd + err + 1 := by
  intro fuel
  induction fuel with
  | zero =>
    intro dbRetries idx db ins upd err hf hr
    simp [max_db_retries] at hf hr
    omega
  | succ n ih =>
    intro dbRetries idx db ins upd err hf hr
    cases ha : errs idx with
    | ok =>
      cases hfind : findRow db c.id <;> simp [saveOneGo, ha, hfind] <;> omega
    | failQuery =>
      by_cases hge : dbRetries + 1 ≥ max_db_retries
      · simp [saveOneGo, ha, hge]
        omega
      · simp only [saveOneGo, ha, if_neg hge]
        have := ih (dbRetries + 1) (idx + 1) db ins upd err
          (by simp [max_db_retries] at hf ⊢; omega)
          (by simp [max_db_retries] at hge ⊢; omega)
        omega
    | failCommit => exact absurd ha (h idx).1
    | excQuery => simp [saveOneGo, ha]; omega
    | excCommit => exact absurd ha (h idx).2

/-- Under attempt outcomes that never fail at commit, the batch loop
moves the three counters by exactly the batch length in total. -/
theorem saveList_adds_length (errs : Nat → DbAttempt)
    (h : ∀ i, errs i ≠ .failCommit ∧ errs i ≠ .excCommit) :
    ∀ (camps : List Campground) (db : Table) (ins upd err idx : Nat),
      (saveList errs camps db ins upd err idx).ins +
        (saveList errs camps db ins upd err idx).upd +
        (saveList errs camps db ins upd err idx).err =
      ins + upd + err + camps.length := by
  intro camps
  induction camps with
  | nil => intro db ins upd err idx; simp [saveList]
  | cons c rest ih =>
    intro db ins upd err idx
    simp only [saveList]
    have h1 := saveOneGo_adds_one errs c h max_db_retries 0 idx db ins upd err
      (by simp) (by simp [max_db_retries])
    have h2 := ih (saveOneGo errs c max_db_retries 0 idx db ins upd err).table
      (saveOneGo errs c max_db_retries 0 idx db ins upd err).ins
      (saveOneGo errs c max_db_retries 0 idx db ins upd err).upd
      (saveOneGo errs c max_db_retries 0 idx db ins upd err).err
      (saveOneGo errs c max_db_retries 0 idx db ins upd err).idx
    simp only [List.length_cons]
    omega

/-- Claim C4, amended.  Provided every storage failure strikes the
existence lookup (never the commit), each record contributes to exactly
one counter and `inserted + updated + errors = N`.  When a commit fails
after the counter was already incremented, the record is recounted on the
retry, so without that proviso the sum can exceed `N`
(`C4_counterexample`). -/
theorem C4_counts_partition (errs : Nat → DbAttempt)
    (h : ∀ i, errs i ≠ DbAttempt.failCommit ∧ errs i ≠ DbAttempt.excCommit)
    (camps : List Campground) (db : Table) :
    (save_to_database errs db camps).ins + (save_to_database errs db camps).upd +
      (save_to_database errs db camps).err = camps.length := by
  have h0 := saveList_adds_length errs h camps db 0 0 0 0
  simpa [save_to_database] using h0

/-- Witness for `C4_counts_partition` on one record with clean storage. -/
theorem C4_counts_partition_witness :
    (save_to_database (fun _ => DbAttempt.ok) [] [⟨"a", "x", none⟩]).ins +
      (save_to_database (fun _ => DbAttempt.ok) [] [⟨"a", "x", none⟩]).upd +
      (save_to_database (fun _ => DbAttempt.ok) [] [⟨"a", "x", none⟩]).err = 1 :=
  C4_counts_partition (fun _ => DbAttempt.ok)
    (fun _ => ⟨(fun hh => nomatch hh), (fun hh => nomatch hh)⟩) [⟨"a", "x", none⟩] []

/-! ## Claim theorems: record processor -/

/-- Dropping one invalid listing anywhere in the batch leaves the valid
records exactly as if the listing were absent and adds one to the
`processing_errors` counter. -/
theorem processPhase_skip (addrOf : RawListing → Option String) (bad : RawListing)
    (hbad : validListing bad.id = none) :
    ∀ l1 l2 : List RawListing,
      processPhase addrOf (l1 ++ bad :: l2) =
        ⟨(processPhase addrOf (l1 ++ l2)).valid,
          (processPhase addrOf (l1 ++ l2)).dropped + 1⟩ := by
  intro l1
  induction l1 with
  | nil =>
    intro l2
    simp [processPhase, process_campground, hbad]
  | cons a t ih =>
    intro l2
    simp only [List.cons_append, processPhase]
    cases process_campground a (addrOf a) <;> simp [ih l2]

/-- Claim C9.  A raw listing whose identity field is absent or of the wrong
shape is rejected by validation (`process_campground` returns no record),
so it never reaches persistence: the valid-record list — and therefore
any `save_to_database` outcome computed from it — is the same as if the
listing were absent, the drop counter gains one, and the listings around
it are still processed. -/
theorem C9_invalid_id_dropped (bad : RawListing) (addrOf : RawListing → Option String)
    (l1 l2 : List RawListing) (errs : Nat → DbAttempt) (db : Table)
    (hbad : validListing bad.id = none) :
    process_campground bad (addrOf bad) = none ∧
    (processPhase addrOf (l1 ++ bad :: l2)).valid =
      (processPhase addrOf (l1 ++ l2)).valid ∧
    (processPhase addrOf (l1 ++ bad :: l2)).dropped =
      (processPhase addrOf (l1 ++ l2)).dropped + 1 ∧
    save_to_database errs db (processPhase addrOf (l1 ++ bad :: l2)).valid =
      save_to_database errs db (processPhase addrOf (l1 ++ l2)).valid := by
  refine ⟨by simp [process_campground, hbad], ?_, ?_, ?_⟩ <;>
    rw [processPhase_skip addrOf bad hbad l1 l2]

/-- Witness for `C9_invalid_id_dropped`: a listing with no id between two
valid listings. -/
theorem C9_invalid_id_dropped_witness :
    process_campground ⟨none, "bad"⟩ none = none ∧
    (processPhase (fun _ => none)
        ([⟨some (.str "g"), "u"⟩] ++ ⟨none, "bad"⟩ :: [⟨some (.str "h"), "v"⟩])).valid =
      (processPhase (fun _ => none)
        ([⟨some (.str "g"), "u"⟩] ++ [⟨some (.str "h"), "v"⟩])).valid ∧
    (processPhase (fun _ => none)
        ([⟨some (.str "g"), "u"⟩] ++ ⟨none, "bad"⟩ :: [⟨some (.str "h"), "v"⟩])).dropped =
      (processPhase (fun _ => none)
        ([⟨some (.str "g"), "u"⟩] ++ [⟨some (.str "h"), "v"⟩])).dropped + 1 ∧
    save_to_database (fun _ => DbAttempt.ok) []
        (processPhase (fun _ => none)
          ([⟨some (.str "g"), "u"⟩] ++ ⟨none, "bad"⟩ :: [⟨some (.str "h"), "v"⟩])).valid =
      save_to_database (fun _ => DbAttempt.ok) []
        (processPhase (fun _ => none)
          ([⟨some (.str "g"), "u"⟩] ++ [⟨some (.str "h"), "v"⟩])).valid :=
  C9_invalid_id_dropped ⟨none, "bad"⟩ (fun _ => none)
    [⟨some (.str "g"), "u"⟩] [⟨some (.str "h"), "v"⟩] (fun _ => DbAttempt.ok) [] rfl

/-! ## Pagination lemmas -/

/-- Invariant of the pagination loop under an infallible fetcher whose
first empty page is `e`.  Starting at page `p ≤ e` with enough fuel, the
loop makes calls on the consecutive pages `p, p+1, ...`, never runs past
the empty page `e`, and never runs past a cap it started under. -/
theorem pageLoop_pure_bounds (f : Nat → List RawListing) (mp : Option Nat) (e : Nat)
    (he : f e = []) (hne : ∀ q, q < e → 1 ≤ q → f q ≠ []) :
    ∀ (fuel p : Nat) (acc : List RawListing) (calls : List Nat),
      1 ≤ p → p ≤ e → e + 1 ≤ fuel + p → (∀ m, mp = some m → p ≤ m) →
      ∃ k raw, pageLoop (pureFetch f) mp fuel p acc calls =
          ⟨calls ++ List.range' p k, raw, false⟩ ∧ 1 ≤ k ∧ p + k ≤ e + 1 ∧
          ∀ m, mp = some m → p + k ≤ m + 1 := by
  intro fuel
  induction fuel with
  | zero =>
    intro p acc calls h1 h2 h3 _
    omega
  | succ n ih =>
    intro p acc calls h1 h2 h3 hcap
    by_cases hpe : p = e
    · subst hpe
      refine ⟨1, acc, ?_, le_refl 1, by omega, fun m hm => by have := hcap m hm; omega⟩
      simp [pageLoop, pureFetch, he]
    · have hlt : p < e := by omega
      have hfp : f p ≠ [] := hne p hlt h1
      have hemp : (f p).isEmpty = false := by
        cases hfe : f p with
        | nil => exact absurd hfe hfp
        | cons a t => rfl
      cases hmp : mp with
      | none =>
        subst hmp
        obtain ⟨k, raw, hr, hk1, hk2, _⟩ :=
          ih (p + 1) (acc ++ f p) (calls ++ [p]) (by omega) (by omega) (by omega)
            (fun m hm => nomatch hm)
        refine ⟨k + 1, raw, ?_, by omega, by omega, fun m hm => nomatch hm⟩
        simp only [pageLoop, pureFetch, hemp, Bool.false_eq_true, if_false, hr]
        rw [List.range'_succ, List.append_assoc, List.singleton_append]
      | some m =>
        subst hmp
        have hpm : p ≤ m := hcap m rfl
        by_cases hstop : m < p + 1
        · refine ⟨1, acc ++ f p, ?_, le_refl 1, by omega,
            fun m' hm' => by cases hm'; omega⟩
          simp [pageLoop, pureFetch, hemp, hstop]
        · obtain ⟨k, raw, hr, hk1, hk2, hk3⟩ :=
            ih (p + 1) (acc ++ f p) (calls ++ [p]) (by omega) (by omega) (by omega)
              (fun m' hm' => by cases hm'; omega)
          refine ⟨k + 1, raw, ?_, by omega, by omega, fun m' hm' => ?_⟩
          · simp only [pageLoop, pureFetch, hemp, Bool.false_eq_true, if_false,
              if_neg hstop, hr]
            rw [List.range'_succ, List.append_assoc, List.singleton_append]
          · cases hm'
            have := hk3 m rfl
            omega

/-! ## Claim theorems: pagination -/

/-- Claim C5, counterexample.  The claim says that with a page cap set the
loop makes at most `maxPages` calls.  With `max_pages = 0` and a
non-empty first page, the cap test `page > max_pages` only runs after
page 1 has been fetched, so one call is made — more than the cap 0. -/
theorem C5_counterexample :
    ¬ ((pageLoop (pureFetch fun p => if p = 1 then [⟨some (.str "cg"), "w"⟩] else [])
        (some 0) 5 1 [] []).calls.length ≤ 0) := by
  decide

/-- Claim C5, amended.  For every mocked response sequence whose first
empty page is `e` (so `e - 1` non-empty pages) and enough fuel, the
pagination loop of `scrape_region` calls the fetcher on the consecutive
pages `1, 2, ..., k` — strictly increasing from 1 — with
`k ≤ e = (#non-empty pages) + 1`; and under a page cap `maxPages ≥ 1` it
makes at most `maxPages` calls.  (With `maxPages = 0` one call is still
made, `C5_counterexample`.) -/
theorem C5_pagination_bounds (f : Nat → List RawListing) (mp : Option Nat)
    (fuel e : Nat) (he : f e = []) (hne : ∀ q, q < e → 1 ≤ q → f q ≠ [])
    (h1e : 1 ≤ e) (hfuel : e ≤ fuel) (hm : ∀ m, mp = some m → 1 ≤ m) :
    ∃ k, (pageLoop (pureFetch f) mp fuel 1 [] []).calls = List.range' 1 k ∧
      1 ≤ k ∧ k ≤ e ∧ ∀ m, mp = some m → k ≤ m := by
  obtain ⟨k, raw, hr, hk1, hk2, hk3⟩ :=
    pageLoop_pure_bounds f mp e he hne fuel 1 [] [] (le_refl 1) h1e (by omega) hm
  refine ⟨k, by rw [hr]; simp, hk1, by omega, fun m hmm => ?_⟩
  have := hk3 m hmm
  omega

/-- Witness for `C5_pagination_bounds`: pages 1 and 2 hold one listing
each, page 3 is empty, the cap is 5. -/
theorem C5_pagination_bounds_witness :
    ∃ k, (pageLoop (pureFetch fun p => if p ≤ 2 then [⟨none, "r"⟩] else [])
        (some 5) 10 1 [] []).calls = List.range' 1 k ∧
      1 ≤ k ∧ k ≤ 3 ∧ ∀ m, (some 5 : Option Nat) = some m → k ≤ m :=
  C5_pagination_bounds (fun p => if p ≤ 2 then [⟨none, "r"⟩] else []) (some 5) 10 3
    (by decide) (by decide) (by decide) (by decide)
    (fun m hm => by simp at hm; omega)

/-! ## Count-summing lemmas -/

/-- Component-wise addition commutes past a fixed left summand. -/
theorem addCounts_left_comm (x y s : Nat × Nat × Nat × Nat) :
    addCounts x (addCounts y s) = addCounts y (addCounts x s) := by
  simp only [addCounts, Prod.mk.injEq]
  omega

/-- Component-wise addition is associative. -/
theorem addCounts_assoc (x y z : Nat × Nat × Nat × Nat) :
    addCounts (addCounts x y) z = addCounts x (addCounts y z) := by
  simp only [addCounts, Prod.mk.injEq]
  omega

/-- Summation distributes over list append. -/
theorem sumCounts_append (a b : List (Nat × Nat × Nat × Nat)) :
    sumCounts (a ++ b) = addCounts (sumCounts a) (sumCounts b) := by
  induction a with
  | nil => simp [sumCounts, addCounts]
  | cons x t ih =>
    calc sumCounts (x :: t ++ b) = addCounts x (sumCounts (t ++ b)) := rfl
      _ = addCounts x (addCounts (sumCounts t) (sumCounts b)) := by rw [ih]
      _ = addCounts (addCounts x (sumCounts t)) (sumCounts b) :=
          (addCounts_assoc x (sumCounts t) (sumCounts b)).symm
      _ = addCounts (sumCounts (x :: t)) (sumCounts b) := rfl

/-- Summation is invariant under permutation of the summands. -/
theorem sumCounts_perm (l1 l2 : List (Nat × Nat × Nat × Nat)) (h : l1.Perm l2) :
    sumCounts l1 = sumCounts l2 := by
  induction h with
  | nil => rfl
  | cons x _ ih => simp [sumCounts, ih]
  | swap x y t => exact addCounts_left_comm y x (sumCounts t)
  | trans _ _ ih1 ih2 => exact ih1.trans ih2

/-! ## Claim theorems: orchestrator -/

/-- Claim C7.  A region whose fetch phase raises (in this code base, the
`NameError` escaping `get_campgrounds` on a network error) is caught by
`scrape_region`'s handler: the function returns normally with the raw
listings counted so far and zeros for the later phases — which are the
partial counts, since nothing has been processed or persisted when the
fetch phase dies — and the database is untouched.  Run among sibling
regions under `parallel_scrape_regions`, the failure aborts nothing:
every sibling's counts are still summed around the failed region's. -/
theorem C7_region_failure_contained (s : RegionSpec) (l1 l2 : List RegionSpec)
    (h : (pageLoop s.fetch s.maxPages s.fuel 1 [] []).raised = true) :
    scrape_region s.fetch s.maxPages s.fuel s.addrOf s.errs s.db =
      (((pageLoop s.fetch s.maxPages s.fuel 1 [] []).raw.length, 0, 0, 0), s.db) ∧
    parallel_scrape_regions (l1 ++ s :: l2) =
      addCounts (sumCounts (l1.map scrapeOne))
        (addCounts ((pageLoop s.fetch s.maxPages s.fuel 1 [] []).raw.length, 0, 0, 0)
          (sumCounts (l2.map scrapeOne))) := by
  have h1 : scrape_region s.fetch s.maxPages s.fuel s.addrOf s.errs s.db =
      (((pageLoop s.fetch s.maxPages s.fuel 1 [] []).raw.length, 0, 0, 0), s.db) := by
    simp [scrape_region, h]
  refine ⟨h1, ?_⟩
  have h2 : scrapeOne s =
      ((pageLoop s.fetch s.maxPages s.fuel 1 [] []).raw.length, 0, 0, 0) := by
    simp [scrapeOne, h1]
  rw [parallel_scrape_regions, List.map_append, sumCounts_append, List.map_cons]
  simp only [sumCounts, h2]

/-- A mocked region whose first page holds one listing and whose second
page fetch raises. -/
def exSpecFail : RegionSpec :=
  ⟨fun p => if p = 1 then .ok [⟨some (.str "cg"), "w"⟩] else .error (),
    none, 5, fun _ => none, fun _ => .ok, []⟩

/-- A mocked region whose first page is already empty. -/
def exSpecEmpty : RegionSpec :=
  ⟨fun _ => .ok [], none, 3, fun _ => none, fun _ => .ok, []⟩

/-- A mocked region with one page of one valid listing. -/
def exSpecOne : RegionSpec :=
  ⟨fun p => if p = 1 then .ok [⟨some (.str "cg1"), "u"⟩] else .ok [],
    none, 5, fun _ => none, fun _ => .ok, []⟩

/-- Witness for `C7_region_failure_contained`: the failing region between
an empty sibling and none. -/
theorem C7_region_failure_contained_witness :
    scrape_region exSpecFail.fetch exSpecFail.maxPages exSpecFail.fuel
        exSpecFail.addrOf exSpecFail.errs exSpecFail.db =
      (((pageLoop exSpecFail.fetch exSpecFail.maxPages exSpecFail.fuel 1 [] []).raw.length,
        0, 0, 0), exSpecFail.db) ∧
    parallel_scrape_regions ([exSpecEmpty] ++ exSpecFail :: []) =
      addCounts (sumCounts ([exSpecEmpty].map scrapeOne))
        (addCounts
          ((pageLoop exSpecFail.fetch exSpecFail.maxPages exSpecFail.fuel 1 [] []).raw.length,
            0, 0, 0)
          (sumCounts (([] : List RegionSpec).map scrapeOne))) :=
  C7_region_failure_contained exSpecFail [exSpecEmpty] [] rfl

/-- Claim C8.  For deterministic mocked regions, the four-count summary of
the parallel orchestrator — which adds each region's counts as its future
completes, in whatever order the pool finishes them — equals the
element-wise sum of running `scrape_region` on each region individually,
whatever the completion order (any permutation of the regions). -/
theorem C8_parallel_equals_individual_sum (specs completed : List RegionSpec)
    (h : completed.Perm specs) :
    parallel_scrape_regions completed = sumCounts (specs.map scrapeOne) := by
  rw [parallel_scrape_regions]
  exact sumCounts_perm _ _ (h.map scrapeOne)

/-- Witness for `C8_parallel_equals_individual_sum`: two regions completed
in swapped order. -/
theorem C8_parallel_equals_individual_sum_witness :
    parallel_scrape_regions [exSpecEmpty, exSpecOne] =
      sumCounts ([exSpecOne, exSpecEmpty].map scrapeOne) :=
  C8_parallel_equals_individual_sum [exSpecOne, exSpecEmpty] [exSpecEmpty, exSpecOne]
    (List.Perm.swap exSpecOne exSpecEmpty [])
